import Mathlib

/-!
Verification development for the vscode-conventional-changelog extension.

The stateful, UI-driven parts of the extension (quick picks, input boxes,
the prompt sequencer) are embedded as pure functions over explicit scripts
of user-interaction events; JavaScript string truthiness is made explicit
(`s ≠ ""`), `string | undefined` becomes `Option String`, and the VS Code
configuration store for a growable-choice step is threaded as an explicit
`List String`.
-/

set_option autoImplicit false

namespace ConventionalCommits

/-! ### String helpers -/

/-- Characters of a list with leading and trailing whitespace removed,
mirroring JavaScript `String.prototype.trim`. -/
def trimChars (l : List Char) : List Char :=
  ((l.dropWhile Char.isWhitespace).reverse.dropWhile Char.isWhitespace).reverse

/-- `trim` on strings, as used on the final serialized message. -/
def trimStr (s : String) : String :=
  String.mk (trimChars s.data)

/-- Node's `path.basename` for POSIX paths: strip trailing separators, then
take the component after the last separator; a path of only separators keeps
one separator, the empty path stays empty. -/
def basename (p : String) : String :=
  let r := p.data.reverse.dropWhile (fun c => c = '/')
  if r = [] then (if p.data = [] then "" else "/")
  else String.mk (r.takeWhile (fun c => c ≠ '/')).reverse

/-! ### Message serializer -/

/-- The answer record accumulated by the prompt sequence: one final formatted
string per conventional-commit field. -/
structure CommitMessage where
  type : String
  scope : String
  subject : String
  body : String
  footer : String
  deriving DecidableEq, Repr

/-- Modelled from the spec: the header line of the serialized message
(`commit-message.ts`'s `serialize` is not under `src/`): `type(scope): subject`,
with the scope segment and its parentheses omitted entirely when the scope is
empty. -/
def headerStr (m : CommitMessage) : String :=
  m.type ++ (if m.scope = "" then "" else "(" ++ m.scope ++ ")") ++ ": " ++ m.subject

/-- Modelled from the spec: the non-empty blocks of the message, in order
header, body, footer; the body and footer blocks are omitted when empty. -/
def messageBlocks (m : CommitMessage) : List String :=
  [headerStr m] ++ (if m.body = "" then [] else [m.body])
    ++ (if m.footer = "" then [] else [m.footer])

/-- Joins message blocks with the separating blank line. -/
def joinBlocks : List String → String
  | [] => ""
  | [b] => b
  | b :: rest => b ++ "\n\n" ++ joinBlocks rest

/-- Modelled from the spec: the message serializer (`commit-message.ts`'s
`serialize`, not under `src/`): a pure function rendering the answer record as
`header`, blank line, `body`, blank line, `footer`, with empty blocks and
their separating blank lines omitted and leading/trailing whitespace trimmed
from the final result. -/
def serialize (m : CommitMessage) : String :=
  trimStr (joinBlocks (messageBlocks m))

/-- Whether a string contains a parenthesis character. -/
def hasParen (s : String) : Bool :=
  s.data.any (fun c => c == '(' || c == ')')

/-! ### Repository resolution (`getRepository` in `conventional-commits.ts`) -/

/-- The `HEAD` reference of a repository: optional branch name and optional
commit id (both `string | undefined` in the git extension API). -/
structure RepoHEAD where
  name : Option String
  commit : Option String
  deriving DecidableEq, Repr

/-- The observable repository state: `HEAD` and the lengths of the three
change lists. -/
structure RepoState where
  head : Option RepoHEAD
  workingTreeChanges : Nat
  mergeChanges : Nat
  indexChanges : Nat
  deriving DecidableEq, Repr

/-- A candidate repository: its root path (`rootUri.fsPath`) and state. -/
structure Repository where
  rootPath : String
  state : RepoState
  deriving DecidableEq, Repr

/-- A workspace folder: display name and filesystem path. -/
structure WorkspaceFolder where
  name : String
  path : String
  deriving DecidableEq, Repr

/-- `hasChanges`: the repository has pending working-tree, merge, or index
changes (the source's `||` chain over the three lengths). -/
def hasChanges (r : Repository) : Bool :=
  r.state.workingTreeChanges != 0 || r.state.mergeChanges != 0
    || r.state.indexChanges != 0

/-- The description shown for a repository choice:
`HEAD?.name || HEAD?.commit?.slice(0, 8) || ''` — branch name when present and
non-empty, otherwise the first 8 characters of the commit id, otherwise empty. -/
def headDescription (head : Option RepoHEAD) : String :=
  let n := (head.bind RepoHEAD.name).getD ""
  if n ≠ "" then n
  else (((head.bind RepoHEAD.commit).getD "").take 8)

/-- The label for a repository choice: the matching workspace folder's name
(`folder?.name || path.basename(...)`), falling back to the path basename when
no folder matches or its name is empty. -/
def repoItemLabel (folders : List WorkspaceFolder) (r : Repository) : String :=
  match folders.find? (fun f => f.path == r.rootPath) with
  | some f => if f.name = "" then basename r.rootPath else f.name
  | none => basename r.rootPath

/-- One item of the repository choice prompt. -/
structure RepoPromptItem where
  index : Nat
  label : String
  description : String
  deriving DecidableEq, Repr

/-- The item built for the repository at a given index; the source's trailing
`|| ''` is the identity on the template-literal string. -/
def mkRepoItem (folders : List WorkspaceFolder) (index : Nat) (r : Repository) :
    RepoPromptItem :=
  { index := index
    label := repoItemLabel folders r
    description := headDescription r.state.head ++ (if hasChanges r then "*" else "") }

/-- `git.repositories.map(function (repo, index) { ... })`: the items of the
repository choice prompt, indexed from `i`. -/
def buildRepoItems (folders : List WorkspaceFolder) : Nat → List Repository → List RepoPromptItem
  | _, [] => []
  | i, r :: rest => mkRepoItem folders i r :: buildRepoItems folders (i + 1) rest

/-- The outcome of `getRepository` up to the user's choice: one of the two
thrown errors, a repository returned without prompting, or a choice prompt
issued with the given items. -/
inductive RepoResolution where
  | errorRepositoryNotFoundInPath (path : String)
  | errorRepositoriesEmpty
  | resolved (repo : Repository)
  | promptChoice (items : List RepoPromptItem)
  deriving DecidableEq, Repr

/-- The candidate-count branches of `getRepository`, reached when no truthy
explicit target path was supplied: zero candidates throw, one is returned
directly, several issue the choice prompt. -/
def resolveFromCandidates (repos : List Repository) (folders : List WorkspaceFolder) :
    RepoResolution :=
  match repos with
  | [] => RepoResolution.errorRepositoriesEmpty
  | [r] => RepoResolution.resolved r
  | _ => RepoResolution.promptChoice (buildRepoItems folders 0 repos)

/-- `getRepository`: when the command argument carries a truthy
(`arg && arg._rootUri.fsPath`) root path, look it up among the candidates and
throw `repositoryNotFoundInPath` on a miss; otherwise fall through to the
candidate-count logic. -/
def getRepository (repos : List Repository) (arg : Option String)
    (folders : List WorkspaceFolder) : RepoResolution :=
  match arg with
  | some p =>
    if p = "" then resolveFromCandidates repos folders
    else
      match repos.find? (fun r => r.rootPath == p) with
      | some r => RepoResolution.resolved r
      | none => RepoResolution.errorRepositoryNotFoundInPath p
  | none => resolveFromCandidates repos folders

/-! ### Prompt interactions (`prompt-types.ts`)

Each widget is embedded as a pure processor of a script of user-interaction
events; it returns the resolved value (`none` when the interaction ended
without resolving, i.e. the user dismissed it) together with the unconsumed
remainder of the script. -/

/-- A quick-pick item (`Item` in `prompt-types.ts`); optional fields default
to the empty string. -/
structure Item where
  label : String
  detail : String := ""
  description : String := ""
  placeholder : String := ""
  deriving DecidableEq, Repr

/-- One user-interaction gesture: selecting and accepting a quick-pick item
with a given label, typing so the widget's value becomes `v`, pressing enter
on an input box, or dismissing the widget. -/
inductive UIEvent where
  | pick (label : String)
  | setValue (v : String)
  | accept
  | hide
  deriving DecidableEq, Repr

/-- JavaScript truthiness of a `string | undefined` validation message:
`undefined` and the empty string are falsy. -/
def truthyMsg : Option String → Bool
  | none => false
  | some s => s != ""

/-- The mutable state of an input box: its current value and the currently
displayed validation message. -/
structure InputBoxState where
  value : String
  validationMessage : Option String
  deriving DecidableEq, Repr

/-- The effect of one event on an input box. -/
inductive InputBoxStep where
  | continued (st : InputBoxState)
  | resolvedWith (r : String)
  | closed
  deriving Repr

/-- `createInputBox`'s event handlers: `onDidChangeValue` re-runs `validate`
over the current value and stores the result as the validation message;
`onDidAccept` re-runs `validate` and, when the message is truthy, leaves the
box open, otherwise resolves with `format` applied to the value. Dismissal
has no handler, so the widget closes without the promise resolving. A pick
gesture has no handler on an input box. -/
def inputBoxHandle (format : String → String) (validate : String → Option String)
    (st : InputBoxState) : UIEvent → InputBoxStep
  | UIEvent.setValue v => InputBoxStep.continued ⟨v, validate v⟩
  | UIEvent.accept =>
    let msg := validate st.value
    if truthyMsg msg then InputBoxStep.continued ⟨st.value, msg⟩
    else InputBoxStep.resolvedWith (format st.value)
  | UIEvent.hide => InputBoxStep.closed
  | UIEvent.pick _ => InputBoxStep.continued st

/-- Runs an input box from a given state over a script of events. -/
def runInputBox (format : String → String) (validate : String → Option String) :
    InputBoxState → List UIEvent → Option String × List UIEvent
  | _, [] => (none, [])
  | st, e :: rest =>
    match inputBoxHandle format validate st e with
    | InputBoxStep.continued st' => runInputBox format validate st' rest
    | InputBoxStep.resolvedWith r => (some r, rest)
    | InputBoxStep.closed => (none, rest)

/-- `createInputBox`: a fresh input box (empty value, no validation message)
run over the script. -/
def createInputBox (format : String → String) (validate : String → Option String)
    (script : List UIEvent) : Option String × List UIEvent :=
  runInputBox format validate ⟨"", none⟩ script

/-- The list actually displayed by `createQuickPick`: the `none` sentinel
item, when present, is unshifted in front of the configured items. -/
def pickerItems (items : List Item) (noneItem : Option Item) : List Item :=
  match noneItem with
  | some ni => ni :: items
  | none => items

/-- `createQuickPick` (with the spec-modelled `createSimpleQuickPick` beneath
it, `quick-pick.ts` not being under `src/`: the selection gesture resolves
with the selected item, dismissal is a cancellation, typing only filters the
list). The selected label is coerced to the empty string when it equals the
`none` sentinel's label, then `format` is applied. -/
def createQuickPick (items : List Item) (noneItem : Option Item)
    (format : String → String) : List UIEvent → Option String × List UIEvent
  | [] => (none, [])
  | UIEvent.pick l :: rest =>
    let sv :=
      match noneItem with
      | some ni => if l = ni.label then "" else l
      | none => l
    (some (format sv), rest)
  | UIEvent.setValue _ :: rest => createQuickPick items noneItem format rest
  | UIEvent.accept :: rest => createQuickPick items noneItem format rest
  | UIEvent.hide :: rest => (none, rest)

/-- The items of a configurable quick pick: one item per value persisted in
the configuration (with the localized from-workspace-configuration detail
`detailText`), then the `newItem` and `newItemWithoutSetting` synthetic
items. -/
def configurableItems (persisted : List String) (detailText : String)
    (newItem newItemWithoutSetting : Item) : List Item :=
  persisted.map (fun v => { label := v, description := "", detail := detailText })
    ++ [newItem, newItemWithoutSetting]

/-- `createConfigurableQuickPick`: run the quick pick over the persisted
values plus the two synthetic items (with the quick pick's own `format`
defaulted to the identity); when the resolved value equals `newItem.label`,
run a nested input box and, if its value is truthy, append it to the
persisted configuration list; when the (possibly reassigned) value equals
`newItemWithoutSetting.label`, run a nested input box without the persistence
side effect; finally apply `format`. Returns the resolved value, the
persisted list after the step, and the unconsumed script. -/
def createConfigurableQuickPick (persisted : List String) (detailText : String)
    (newItem newItemWithoutSetting : Item) (noneItem : Option Item)
    (format : String → String) (validate : String → Option String)
    (script : List UIEvent) : Option String × List String × List UIEvent :=
  match createQuickPick (configurableItems persisted detailText newItem newItemWithoutSetting)
      noneItem id script with
  | (none, rest) => (none, persisted, rest)
  | (some sv, rest) =>
    let step1 : Option String × List String × List UIEvent :=
      if sv = newItem.label then
        match createInputBox id validate rest with
        | (none, r) => (none, persisted, r)
        | (some v, r) => (some v, if v = "" then persisted else persisted ++ [v], r)
      else (some sv, persisted, rest)
    match step1 with
    | (none, persisted1, rest1) => (none, persisted1, rest1)
    | (some sv1, persisted1, rest1) =>
      if sv1 = newItemWithoutSetting.label then
        match createInputBox id validate rest1 with
        | (none, r) => (none, persisted1, r)
        | (some v2, r) => (some (format v2), persisted1, r)
      else (some (format sv1), persisted1, rest1)

/-! ### The prompt sequencer -/

/-- The interaction kind of a step descriptor, with the data each kind needs.
For a growable-choice step the persisted list is threaded separately, as the
configuration value under the step's configuration key. -/
inductive PromptKind where
  | quickPick (items : List Item) (noneItem : Option Item)
  | inputBox (validate : String → Option String)
  | configurableQuickPick (detailText : String) (newItem newItemWithoutSetting : Item)
      (noneItem : Option Item) (validate : String → Option String)

/-- A step descriptor: field name, interaction kind, and the formatter
applied to the raw answer. -/
structure PromptStep where
  name : String
  kind : PromptKind
  format : String → String

/-- Runs one step: the value it resolved to (`none` on cancellation), the
persisted configuration list after the step, and the unconsumed script. -/
def runStep (persisted : List String) (step : PromptStep) (script : List UIEvent) :
    Option String × List String × List UIEvent :=
  match step.kind with
  | PromptKind.quickPick items noneItem =>
    let (r, s) := createQuickPick items noneItem step.format script
    (r, persisted, s)
  | PromptKind.inputBox validate =>
    let (r, s) := createInputBox step.format validate script
    (r, persisted, s)
  | PromptKind.configurableQuickPick detailText newItem newItemWithoutSetting noneItem validate =>
    createConfigurableQuickPick persisted detailText newItem newItemWithoutSetting
      noneItem step.format validate script

/-- Modelled from the spec: the prompt sequencer (`prompts/index`, not under
`src/`) executes the step descriptors strictly sequentially, each step
awaited before the next begins, accumulating a name-to-answer record; a step
that ends without resolving aborts the whole sequence, so no partial answer
record is returned. -/
def runPrompts (persisted : List String) :
    List PromptStep → List UIEvent →
    Option (List (String × String)) × List String × List UIEvent
  | [], script => (some [], persisted, script)
  | step :: rest, script =>
    match runStep persisted step script with
    | (none, persisted', script') => (none, persisted', script')
    | (some v, persisted', script') =>
      match runPrompts persisted' rest script' with
      | (none, persisted'', script'') => (none, persisted'', script'')
      | (some answers, persisted'', script'') =>
        (some ((step.name, v) :: answers), persisted'', script'')

/-- The answer recorded for a field name, defaulting to the empty string. -/
def answerFor (answers : List (String × String)) (field : String) : String :=
  match answers.find? (fun kv => kv.1 == field) with
  | some kv => kv.2
  | none => ""

/-- The commit-message record assembled from a completed answer record. -/
def commitFromAnswers (answers : List (String × String)) : CommitMessage :=
  { type := answerFor answers "type"
    scope := answerFor answers "scope"
    subject := answerFor answers "subject"
    body := answerFor answers "body"
    footer := answerFor answers "footer" }

/-- The whole flow after repository resolution: run the sequence and, only
when it completed with an answer record, serialize it into the message
handed to the source-control input box. Returns the message (`none` when the
sequence was cancelled) and the persisted list after the run. -/
def produceMessage (persisted : List String) (steps : List PromptStep)
    (script : List UIEvent) : Option String × List String :=
  match runPrompts persisted steps script with
  | (none, persisted', _) => (none, persisted')
  | (some answers, persisted', _) => (some (serialize (commitFromAnswers answers)), persisted')

/-! ## Theorems -/

/-! ### Repository resolution -/

theorem buildRepoItems_length (folders : List WorkspaceFolder) :
    ∀ (i : Nat) (repos : List Repository),
      (buildRepoItems folders i repos).length = repos.length
  | _, [] => rfl
  | i, _ :: rest => by
    simp only [buildRepoItems, List.length_cons]
    exact congrArg (· + 1) (buildRepoItems_length folders (i + 1) rest)

theorem buildRepoItems_get (folders : List WorkspaceFolder) :
    ∀ (i : Nat) (repos : List Repository) (j : Nat)
      (h : j < (buildRepoItems folders i repos).length) (h' : j < repos.length),
      (buildRepoItems folders i repos).get ⟨j, h⟩ = mkRepoItem folders (i + j) (repos.get ⟨j, h'⟩)
  | _, [], j, h, h' => absurd h' (by simp)
  | i, r :: rest, 0, h, h' => by simp [buildRepoItems]
  | i, r :: rest, j + 1, h, h' => by
    have hlen : (buildRepoItems folders i (r :: rest)).length
        = (buildRepoItems folders (i + 1) rest).length + 1 := by
      simp [buildRepoItems]
    have hr : j < (buildRepoItems folders (i + 1) rest).length := by omega
    have hr' : j < rest.length := by
      simpa using Nat.lt_of_succ_lt_succ h'
    simp only [buildRepoItems, List.get_cons_succ]
    rw [buildRepoItems_get folders (i + 1) rest j hr hr']
    congr 1
    omega

/-- C9: the explicit-target check precedes the candidate-count checks: a
truthy explicit target that matches no candidate fails with the
repository-not-found error even on an empty candidate list, and the
repositories-empty error can only arise when no truthy explicit target was
supplied. -/
theorem explicit_target_precedence :
    (∀ (repos : List Repository) (p : String) (folders : List WorkspaceFolder),
       p ≠ "" → repos.find? (fun r => r.rootPath == p) = none →
       getRepository repos (some p) folders = RepoResolution.errorRepositoryNotFoundInPath p) ∧
    (∀ (repos : List Repository) (arg : Option String) (folders : List WorkspaceFolder),
       getRepository repos arg folders = RepoResolution.errorRepositoriesEmpty →
       arg = none ∨ arg = some "") := by
  constructor
  · intro repos p folders hp hfind
    simp [getRepository, hp, hfind]
  · intro repos arg folders h
    match arg with
    | none => exact Or.inl rfl
    | some p =>
      by_cases hp : p = ""
      · exact Or.inr (by rw [hp])
      · exfalso
        simp only [getRepository, if_neg hp] at h
        rcases hfind : repos.find? (fun r => r.rootPath == p) with _ | r <;>
          rw [hfind] at h <;> simp at h

theorem explicit_target_precedence_witness :
    getRepository [] (some "/x") [] = RepoResolution.errorRepositoryNotFoundInPath "/x" ∧
    ((none : Option String) = none ∨ (none : Option String) = some "") :=
  ⟨explicit_target_precedence.1 [] "/x" [] (by decide) rfl,
   explicit_target_precedence.2 [] none [] rfl⟩

/-- C1 counterexample: a call with zero candidate repositories but a truthy
explicit target fails with the repository-not-found error, not the
repositories-empty error, refuting the unconditional "zero candidates →
`NoRepositoryError`" reading. -/
theorem getRepository_zero_candidates_cx :
    getRepository [] (some "/x") [] = RepoResolution.errorRepositoryNotFoundInPath "/x" ∧
    getRepository [] (some "/x") [] ≠ RepoResolution.errorRepositoriesEmpty := by
  constructor
  · rfl
  · decide

/-- C1 (amended): repository resolution with zero candidates and no truthy
explicit target fails with the repositories-empty error; a truthy explicit
target matching a candidate returns that candidate; a truthy explicit target
matching no candidate fails with the repository-not-found error; exactly one
candidate and no truthy explicit target returns it without prompting. -/
theorem getRepository_policy :
    (∀ (arg : Option String) (folders : List WorkspaceFolder),
       (arg = none ∨ arg = some "") →
       getRepository [] arg folders = RepoResolution.errorRepositoriesEmpty) ∧
    (∀ (repos : List Repository) (p : String) (folders : List WorkspaceFolder) (r : Repository),
       p ≠ "" → repos.find? (fun r => r.rootPath == p) = some r →
       getRepository repos (some p) folders = RepoResolution.resolved r) ∧
    (∀ (repos : List Repository) (p : String) (folders : List WorkspaceFolder),
       p ≠ "" → repos.find? (fun r => r.rootPath == p) = none →
       getRepository repos (some p) folders = RepoResolution.errorRepositoryNotFoundInPath p) ∧
    (∀ (r : Repository) (arg : Option String) (folders : List WorkspaceFolder),
       (arg = none ∨ arg = some "") →
       getRepository [r] arg folders = RepoResolution.resolved r) := by
  refine ⟨?_, ?_, ?_, ?_⟩
  · rintro arg folders (rfl | rfl) <;> rfl
  · intro repos p folders r hp hfind
    simp [getRepository, hp, hfind]
  · intro repos p folders hp hfind
    simp [getRepository, hp, hfind]
  · rintro r arg folders (rfl | rfl) <;> rfl

theorem getRepository_policy_witness :
    getRepository [] none [] = RepoResolution.errorRepositoriesEmpty ∧
    getRepository [⟨"/a", ⟨none, 0, 0, 0⟩⟩] (some "/a") [] =
      RepoResolution.resolved ⟨"/a", ⟨none, 0, 0, 0⟩⟩ ∧
    getRepository [⟨"/a", ⟨none, 0, 0, 0⟩⟩] (some "/b") [] =
      RepoResolution.errorRepositoryNotFoundInPath "/b" ∧
    getRepository [⟨"/a", ⟨none, 0, 0, 0⟩⟩] none [] =
      RepoResolution.resolved ⟨"/a", ⟨none, 0, 0, 0⟩⟩ :=
  ⟨getRepository_policy.1 none [] (Or.inl rfl),
   getRepository_policy.2.1 [⟨"/a", ⟨none, 0, 0, 0⟩⟩] "/a" [] ⟨"/a", ⟨none, 0, 0, 0⟩⟩
     (by decide) (by decide),
   getRepository_policy.2.2.1 [⟨"/a", ⟨none, 0, 0, 0⟩⟩] "/b" [] (by decide) (by decide),
   getRepository_policy.2.2.2 ⟨"/a", ⟨none, 0, 0, 0⟩⟩ none [] (Or.inl rfl)⟩

/-- C7: with more than one candidate and no truthy explicit target, the
choice prompt is issued with exactly one item per repository; the item at
index `j` carries index `j`, is labeled by the matching workspace folder's
name (falling back to the path basename), and is described by the HEAD
branch name or 8-character short commit id with a `*` marker appended when
the repository has pending working-tree, merge, or index changes. -/
theorem getRepository_multi_prompt :
    ∀ (repos : List Repository) (arg : Option String) (folders : List WorkspaceFolder),
      1 < repos.length → (arg = none ∨ arg = some "") →
      getRepository repos arg folders =
        RepoResolution.promptChoice (buildRepoItems folders 0 repos) ∧
      (buildRepoItems folders 0 repos).length = repos.length ∧
      ∀ (j : Nat) (h : j < (buildRepoItems folders 0 repos).length) (h' : j < repos.length),
        (buildRepoItems folders 0 repos).get ⟨j, h⟩ =
          { index := j
            label := repoItemLabel folders (repos.get ⟨j, h'⟩)
            description := headDescription (repos.get ⟨j, h'⟩).state.head ++
              (if hasChanges (repos.get ⟨j, h'⟩) then "*" else "") } := by
  intro repos arg folders hlen harg
  refine ⟨?_, buildRepoItems_length folders 0 repos, ?_⟩
  · match repos, hlen with
    | r1 :: r2 :: rest, _ =>
      rcases harg with rfl | rfl <;> rfl
  · intro j h h'
    rw [buildRepoItems_get folders 0 repos j h h']
    simp [mkRepoItem]

theorem getRepository_multi_prompt_witness :
    getRepository [⟨"/a", ⟨some ⟨some "main", none⟩, 1, 0, 0⟩⟩, ⟨"/b", ⟨none, 0, 0, 0⟩⟩]
        none [⟨"alpha", "/a"⟩] =
      RepoResolution.promptChoice
        (buildRepoItems [⟨"alpha", "/a"⟩] 0
          [⟨"/a", ⟨some ⟨some "main", none⟩, 1, 0, 0⟩⟩, ⟨"/b", ⟨none, 0, 0, 0⟩⟩]) ∧
    (buildRepoItems [⟨"alpha", "/a"⟩] 0
        [⟨"/a", ⟨some ⟨some "main", none⟩, 1, 0, 0⟩⟩, ⟨"/b", ⟨none, 0, 0, 0⟩⟩]).length = 2 :=
  ⟨(getRepository_multi_prompt
      [⟨"/a", ⟨some ⟨some "main", none⟩, 1, 0, 0⟩⟩, ⟨"/b", ⟨none, 0, 0, 0⟩⟩]
      none [⟨"alpha", "/a"⟩] (by decide) (Or.inl rfl)).1,
   (getRepository_multi_prompt
      [⟨"/a", ⟨some ⟨some "main", none⟩, 1, 0, 0⟩⟩, ⟨"/b", ⟨none, 0, 0, 0⟩⟩]
      none [⟨"alpha", "/a"⟩] (by decide) (Or.inl rfl)).2.1⟩

/-! ### Message serializer -/

theorem mem_of_mem_trimChars {c : Char} {l : List Char} (h : c ∈ trimChars l) : c ∈ l := by
  unfold trimChars at h
  rw [List.mem_reverse] at h
  have h2 : c ∈ (l.dropWhile Char.isWhitespace).reverse :=
    (List.dropWhile_sublist _).subset h
  rw [List.mem_reverse] at h2
  exact (List.dropWhile_sublist _).subset h2

theorem mem_joinBlocks :
    ∀ (bs : List String) (c : Char), c ∈ (joinBlocks bs).data →
      c = '\n' ∨ ∃ b, b ∈ bs ∧ c ∈ b.data
  | [], _, hc => by simp [joinBlocks, String.data] at hc
  | [b], c, hc => Or.inr ⟨b, by simp, by simpa [joinBlocks] using hc⟩
  | b :: b2 :: t, c, hc => by
    simp only [joinBlocks, String.data_append, List.mem_append] at hc
    rcases hc with (hb | hsep) | hrest
    · exact Or.inr ⟨b, by simp, hb⟩
    · left
      simpa using hsep
    · rcases mem_joinBlocks (b2 :: t) c hrest with hnl | ⟨b', hb', hc'⟩
      · exact Or.inl hnl
      · exact Or.inr ⟨b', by simp [hb'], hc'⟩

theorem mem_messageBlocks {m : CommitMessage} {b : String} (h : b ∈ messageBlocks m) :
    b = headerStr m ∨ b = m.body ∨ b = m.footer := by
  unfold messageBlocks at h
  split_ifs at h <;> simp_all <;> tauto

theorem hasParen_false_not_mem {s : String} (h : hasParen s = false) {c : Char}
    (hc : c ∈ s.data) : (c == '(' || c == ')') = false := by
  unfold hasParen at h
  rw [List.any_eq_false] at h
  simpa using h c hc

theorem joinBlocks_cons_exists (b : String) (rest : List String) :
    ∃ t, joinBlocks (b :: rest) = b ++ t := by
  cases rest with
  | nil => exact ⟨"", by simp [joinBlocks, String.append_empty]⟩
  | cons b2 t2 =>
    exact ⟨"\n\n" ++ joinBlocks (b2 :: t2), by simp [joinBlocks, String.append_assoc]⟩

/-- C2: with an empty scope the serializer introduces no parenthesis (the
serialized message of paren-free fields is paren-free); with a non-empty
scope the message's header is exactly `type(scope): subject` (the joined
blocks start with exactly that header); with empty body and footer the
result is that header alone with no trailing blank sections (under the trim
of the final result being the identity on the header); the spec's example
record serializes to `feat(api): add auth`. -/
theorem serialize_scope_header :
    ∀ m : CommitMessage,
      (m.scope = "" → hasParen m.type = false → hasParen m.subject = false →
        hasParen m.body = false → hasParen m.footer = false →
        hasParen (serialize m) = false) ∧
      (m.scope ≠ "" →
        headerStr m = m.type ++ "(" ++ m.scope ++ ")" ++ ": " ++ m.subject ∧
        ∃ t, joinBlocks (messageBlocks m) =
          (m.type ++ "(" ++ m.scope ++ ")" ++ ": " ++ m.subject) ++ t) ∧
      (m.scope ≠ "" → m.body = "" → m.footer = "" →
        trimStr (headerStr m) = headerStr m →
        serialize m = m.type ++ "(" ++ m.scope ++ ")" ++ ": " ++ m.subject) ∧
      serialize ⟨"feat", "api", "add auth", "", ""⟩ = "feat(api): add auth" := by
  intro m
  refine ⟨?_, ?_, ?_, by decide⟩
  · intro hscope ht hs hb hf
    rw [Bool.eq_false_iff]
    intro hcontra
    obtain ⟨c, hcmem, hcp⟩ := List.any_eq_true.1 hcontra
    have h1 : c ∈ (joinBlocks (messageBlocks m)).data := mem_of_mem_trimChars hcmem
    rcases mem_joinBlocks _ _ h1 with rfl | ⟨b, hbmem, hcb⟩
    · exact absurd hcp (by decide)
    · rcases mem_messageBlocks hbmem with rfl | rfl | rfl
      · unfold headerStr at hcb
        rw [hscope, if_pos rfl] at hcb
        simp only [String.data_append, List.mem_append] at hcb
        rcases hcb with ((hct | hcempty) | hccolon) | hcsub
        · exact absurd hcp (by simpa using hasParen_false_not_mem ht hct)
        · simp [String.data] at hcempty
        · have : c = ':' ∨ c = ' ' := by simpa using hccolon
          rcases this with rfl | rfl <;> exact absurd hcp (by decide)
        · exact absurd hcp (by simpa using hasParen_false_not_mem hs hcsub)
      · exact absurd hcp (by simpa using hasParen_false_not_mem hb hcb)
      · exact absurd hcp (by simpa using hasParen_false_not_mem hf hcb)
  · intro hscope
    have hheader : headerStr m = m.type ++ "(" ++ m.scope ++ ")" ++ ": " ++ m.subject := by
      unfold headerStr
      rw [if_neg hscope]
      simp [String.append_assoc]
    refine ⟨hheader, ?_⟩
    obtain ⟨t, ht⟩ := joinBlocks_cons_exists (headerStr m)
      ((if m.body = "" then [] else [m.body]) ++ (if m.footer = "" then [] else [m.footer]))
    refine ⟨t, ?_⟩
    have hmb : messageBlocks m = headerStr m ::
        ((if m.body = "" then [] else [m.body]) ++
          (if m.footer = "" then [] else [m.footer])) := rfl
    rw [hmb, ht, hheader]
  · intro hscope hbody hfooter htrim
    unfold serialize messageBlocks
    rw [hbody, hfooter]
    simp only [eq_self_iff_true, ite_true, List.append_nil]
    have hjoin : joinBlocks [headerStr m] = headerStr m := rfl
    rw [hjoin, htrim]
    unfold headerStr
    rw [if_neg hscope]
    simp [String.append_assoc]

theorem serialize_scope_header_witness :
    hasParen (serialize ⟨"fix", "", "typo", "", ""⟩) = false ∧
    serialize ⟨"feat", "api", "add auth", "", ""⟩ =
      "feat" ++ "(" ++ "api" ++ ")" ++ ": " ++ "add auth" :=
  ⟨(serialize_scope_header ⟨"fix", "", "typo", "", ""⟩).1 rfl (by decide) (by decide)
     (by decide) (by decide),
   (serialize_scope_header ⟨"feat", "api", "add auth", "", ""⟩).2.2.1 (by decide) rfl rfl
     (by decide)⟩

/-- C8: the serializer is a pure function of the answer record: records with
identical fields always serialize to identical strings, so serializing the
same record twice yields identical output. -/
theorem serialize_deterministic :
    ∀ a b : CommitMessage, a.type = b.type → a.scope = b.scope → a.subject = b.subject →
      a.body = b.body → a.footer = b.footer → serialize a = serialize b := by
  intro a b h1 h2 h3 h4 h5
  have hab : a = b := by
    cases a
    cases b
    simp_all
  rw [hab]

theorem serialize_deterministic_witness :
    serialize ⟨"feat", "api", "add auth", "", ""⟩ =
      serialize ⟨"feat", "api", "add auth", "", ""⟩ :=
  serialize_deterministic ⟨"feat", "api", "add auth", "", ""⟩
    ⟨"feat", "api", "add auth", "", ""⟩ rfl rfl rfl rfl rfl

/-! ### Quick pick and input box -/

/-- C5: in a single-choice step carrying a `none` sentinel item, accepting a
selection whose label equals the sentinel's label resolves with the
formatter applied to the empty string; accepting any other label resolves
with the formatter applied to that label. -/
theorem quickPick_none_coercion :
    ∀ (items : List Item) (ni : Item) (format : String → String) (l : String)
      (rest : List UIEvent),
      (l = ni.label →
        createQuickPick items (some ni) format (UIEvent.pick l :: rest) =
          (some (format ""), rest)) ∧
      (l ≠ ni.label →
        createQuickPick items (some ni) format (UIEvent.pick l :: rest) =
          (some (format l), rest)) := by
  intro items ni format l rest
  constructor
  · intro h
    simp [createQuickPick, h]
  · intro h
    simp [createQuickPick, h]

theorem quickPick_none_coercion_witness :
    createQuickPick [] (some ⟨"None", "", "", ""⟩) id [UIEvent.pick "None"] = (some "", []) ∧
    createQuickPick [] (some ⟨"None", "", "", ""⟩) id [UIEvent.pick "feat"] =
      (some "feat", []) :=
  ⟨(quickPick_none_coercion [] ⟨"None", "", "", ""⟩ id "None" []).1 rfl,
   (quickPick_none_coercion [] ⟨"None", "", "", ""⟩ id "feat" []).2 (by decide)⟩

theorem runInputBox_sound (format : String → String) (validate : String → Option String) :
    ∀ (script : List UIEvent) (st : InputBoxState) (r : String) (rest : List UIEvent),
      runInputBox format validate st script = (some r, rest) →
      ∃ v, truthyMsg (validate v) = false ∧ r = format v
  | [], _, _, _, h => by simp [runInputBox] at h
  | e :: s, st, r, rest, h => by
    cases e with
    | setValue v =>
      exact runInputBox_sound format validate s ⟨v, validate v⟩ r rest
        (by simpa [runInputBox, inputBoxHandle] using h)
    | accept =>
      by_cases hv : truthyMsg (validate st.value) = true
      · refine runInputBox_sound format validate s ⟨st.value, validate st.value⟩ r rest ?_
        simpa [runInputBox, inputBoxHandle, hv] using h
      · rw [Bool.not_eq_true] at hv
        simp only [runInputBox, inputBoxHandle, hv, Bool.false_eq_true, if_false,
          Prod.mk.injEq, Option.some.injEq] at h
        exact ⟨st.value, hv, h.1.symm⟩
    | hide => simp [runInputBox, inputBoxHandle] at h
    | pick l =>
      exact runInputBox_sound format validate s st r rest
        (by simpa [runInputBox, inputBoxHandle] using h)

/-- C6: an input box never resolves with a value whose validation message is
truthy: every resolution is the formatter applied to a value that passes
validation; each keystroke re-runs the validation function and stores its
message as the live validation message; accepting while the message is
truthy leaves the box open with the message displayed; accepting while
validation passes resolves with the formatter applied to the current
value. -/
theorem inputBox_validation :
    (∀ (format : String → String) (validate : String → Option String)
       (script rest : List UIEvent) (st : InputBoxState) (r : String),
       runInputBox format validate st script = (some r, rest) →
       ∃ v, truthyMsg (validate v) = false ∧ r = format v) ∧
    (∀ (format : String → String) (validate : String → Option String)
       (st : InputBoxState) (v : String),
       inputBoxHandle format validate st (UIEvent.setValue v) =
         InputBoxStep.continued ⟨v, validate v⟩) ∧
    (∀ (format : String → String) (validate : String → Option String)
       (st : InputBoxState),
       truthyMsg (validate st.value) = true →
       inputBoxHandle format validate st UIEvent.accept =
         InputBoxStep.continued ⟨st.value, validate st.value⟩) ∧
    (∀ (format : String → String) (validate : String → Option String)
       (st : InputBoxState),
       truthyMsg (validate st.value) = false →
       inputBoxHandle format validate st UIEvent.accept =
         InputBoxStep.resolvedWith (format st.value)) := by
  refine ⟨?_, ?_, ?_, ?_⟩
  · intro format validate script rest st r h
    exact runInputBox_sound format validate script st r rest h
  · intro format validate st v
    rfl
  · intro format validate st h
    simp [inputBoxHandle, h]
  · intro format validate st h
    simp [inputBoxHandle, h]

theorem inputBox_validation_witness :
    (∃ v, truthyMsg ((fun s => if s = "" then some "required" else none) v) = false ∧
       "x" = id v) ∧
    inputBoxHandle id (fun s => if s = "" then some "required" else none) ⟨"", none⟩
      UIEvent.accept = InputBoxStep.continued ⟨"", some "required"⟩ ∧
    inputBoxHandle id (fun s => if s = "" then some "required" else none) ⟨"x", none⟩
      UIEvent.accept = InputBoxStep.resolvedWith "x" :=
  ⟨inputBox_validation.1 id (fun s => if s = "" then some "required" else none)
     [UIEvent.setValue "x", UIEvent.accept] [] ⟨"", none⟩ "x" rfl,
   inputBox_validation.2.2.1 id (fun s => if s = "" then some "required" else none)
     ⟨"", none⟩ rfl,
   inputBox_validation.2.2.2 id (fun s => if s = "" then some "required" else none)
     ⟨"x", none⟩ rfl⟩

/-! ### Configurable quick pick -/

theorem createQuickPick_pick_of_ne_none (items : List Item) (noneItem : Option Item)
    (l : String) (rest : List UIEvent) (h : ∀ ni, noneItem = some ni → l ≠ ni.label) :
    createQuickPick items noneItem id (UIEvent.pick l :: rest) = (some l, rest) := by
  cases noneItem with
  | none => rfl
  | some ni => simp [createQuickPick, h ni rfl]

/-- C4: in a growable-choice step whose synthetic labels do not collide with
the `none` sentinel, selecting the create-and-remember item and entering a
non-empty value appends that value to the persisted list; entering an empty
value persists nothing; and selecting the create-without-remembering item
leaves the persisted list unchanged whatever is entered. -/
theorem configurableQuickPick_persistence :
    ∀ (persisted : List String) (detailText : String) (newItem niws : Item)
      (noneItem : Option Item) (format : String → String)
      (validate : String → Option String) (rest : List UIEvent),
      (∀ ni, noneItem = some ni → newItem.label ≠ ni.label ∧ niws.label ≠ ni.label) →
      ((∀ (v : String) (r : List UIEvent),
          createInputBox id validate rest = (some v, r) → v ≠ "" →
          (createConfigurableQuickPick persisted detailText newItem niws noneItem format
            validate (UIEvent.pick newItem.label :: rest)).2.1 = persisted ++ [v]) ∧
       (∀ r : List UIEvent,
          createInputBox id validate rest = (some "", r) →
          (createConfigurableQuickPick persisted detailText newItem niws noneItem format
            validate (UIEvent.pick newItem.label :: rest)).2.1 = persisted) ∧
       (niws.label ≠ newItem.label →
          (createConfigurableQuickPick persisted detailText newItem niws noneItem format
            validate (UIEvent.pick niws.label :: rest)).2.1 = persisted)) := by
  intro persisted detailText newItem niws noneItem format validate rest hni
  refine ⟨?_, ?_, ?_⟩
  · intro v r hin hv
    have hq := createQuickPick_pick_of_ne_none
      (configurableItems persisted detailText newItem niws) noneItem newItem.label rest
      (fun ni h => (hni ni h).1)
    rcases h2 : createInputBox id validate r with ⟨o2, r2⟩
    unfold createConfigurableQuickPick
    rw [hq]
    by_cases hw : v = niws.label
    · subst hw
      cases o2 with
      | none => simp [hin, hv, h2]
      | some v2 => simp [hin, hv, h2]
    · simp [hin, hv, hw]
  · intro r hin
    have hq := createQuickPick_pick_of_ne_none
      (configurableItems persisted detailText newItem niws) noneItem newItem.label rest
      (fun ni h => (hni ni h).1)
    rcases h2 : createInputBox id validate r with ⟨o2, r2⟩
    unfold createConfigurableQuickPick
    rw [hq]
    by_cases hw : ("" : String) = niws.label
    · cases o2 with
      | none => simp [hin, hw, h2]
      | some v2 => simp [hin, hw, h2]
    · simp [hin, hw]
  · intro hwn
    have hq := createQuickPick_pick_of_ne_none
      (configurableItems persisted detailText newItem niws) noneItem niws.label rest
      (fun ni h => (hni ni h).2)
    rcases h2 : createInputBox id validate rest with ⟨o2, r2⟩
    unfold createConfigurableQuickPick
    rw [hq]
    cases o2 with
    | none => simp [hwn, h2]
    | some v2 => simp [hwn, h2]

theorem configurableQuickPick_persistence_witness :
    (createConfigurableQuickPick ["api"] "cfg" ⟨"new", "", "", "enter"⟩ ⟨"nosave", "", "", ""⟩
      none id (fun _ => none)
      [UIEvent.pick "new", UIEvent.setValue "web", UIEvent.accept]).2.1 = ["api"] ++ ["web"] ∧
    (createConfigurableQuickPick ["api"] "cfg" ⟨"new", "", "", "enter"⟩ ⟨"nosave", "", "", ""⟩
      none id (fun _ => none)
      [UIEvent.pick "nosave", UIEvent.setValue "web", UIEvent.accept]).2.1 = ["api"] :=
  ⟨(configurableQuickPick_persistence ["api"] "cfg" ⟨"new", "", "", "enter"⟩
      ⟨"nosave", "", "", ""⟩ none id (fun _ => none) [UIEvent.setValue "web", UIEvent.accept]
      (fun ni h => Option.noConfusion h)).1 "web" [] rfl (by decide),
   (configurableQuickPick_persistence ["api"] "cfg" ⟨"new", "", "", "enter"⟩
      ⟨"nosave", "", "", ""⟩ none id (fun _ => none) [UIEvent.setValue "web", UIEvent.accept]
      (fun ni h => Option.noConfusion h)).2.2 (by decide)⟩

/-- C10: the configurable quick pick dispatches purely on string equality
with the synthetic labels after each resolution: when the value entered in
the create-and-remember nested input (already appended to the persisted list
when non-empty) equals the without-remembering item's label, a second nested
input is opened and its value is what the step returns; and a persisted
value whose text equals the create-and-remember label triggers the creation
flow instead of being returned directly. -/
theorem configurableQuickPick_label_dispatch :
    ∀ (persisted : List String) (detailText : String) (newItem niws : Item)
      (noneItem : Option Item) (format : String → String)
      (validate : String → Option String) (rest : List UIEvent),
      (∀ ni, noneItem = some ni → newItem.label ≠ ni.label) →
      ((∀ (v : String) (r : List UIEvent) (v2 : String) (r2 : List UIEvent),
          createInputBox id validate rest = (some v, r) → v ≠ "" → v = niws.label →
          createInputBox id validate r = (some v2, r2) →
          createConfigurableQuickPick persisted detailText newItem niws noneItem format
            validate (UIEvent.pick newItem.label :: rest) =
            (some (format v2), persisted ++ [v], r2)) ∧
       (newItem.label ∈ persisted →
        ∀ (v : String) (r : List UIEvent),
          createInputBox id validate rest = (some v, r) → v ≠ "" → v ≠ niws.label →
          createConfigurableQuickPick persisted detailText newItem niws noneItem format
            validate (UIEvent.pick newItem.label :: rest) =
            (some (format v), persisted ++ [v], r))) := by
  intro persisted detailText newItem niws noneItem format validate rest hni
  have hq := createQuickPick_pick_of_ne_none
    (configurableItems persisted detailText newItem niws) noneItem newItem.label rest
    (fun ni h => hni ni h)
  constructor
  · intro v r v2 r2 hin hv hw h2
    subst hw
    unfold createConfigurableQuickPick
    rw [hq]
    simp [hin, hv, h2]
  · intro _ v r hin hv hw
    unfold createConfigurableQuickPick
    rw [hq]
    simp [hin, hv, hw]

theorem configurableQuickPick_label_dispatch_witness :
    createConfigurableQuickPick [] "cfg" ⟨"new", "", "", ""⟩ ⟨"nosave", "", "", ""⟩
      none id (fun _ => none)
      [UIEvent.pick "new", UIEvent.setValue "nosave", UIEvent.accept,
        UIEvent.setValue "x", UIEvent.accept] = (some "x", ["nosave"], []) ∧
    createConfigurableQuickPick ["new"] "cfg" ⟨"new", "", "", ""⟩ ⟨"nosave", "", "", ""⟩
      none id (fun _ => none)
      [UIEvent.pick "new", UIEvent.setValue "s", UIEvent.accept] =
      (some "s", ["new"] ++ ["s"], []) :=
  ⟨(configurableQuickPick_label_dispatch [] "cfg" ⟨"new", "", "", ""⟩ ⟨"nosave", "", "", ""⟩
      none id (fun _ => none)
      [UIEvent.setValue "nosave", UIEvent.accept, UIEvent.setValue "x", UIEvent.accept]
      (fun ni h => Option.noConfusion h)).1 "nosave" [UIEvent.setValue "x", UIEvent.accept]
      "x" [] rfl (by decide) rfl rfl,
   (configurableQuickPick_label_dispatch ["new"] "cfg" ⟨"new", "", "", ""⟩
      ⟨"nosave", "", "", ""⟩ none id (fun _ => none) [UIEvent.setValue "s", UIEvent.accept]
      (fun ni h => Option.noConfusion h)).2 (by decide) "s" [] rfl (by decide) (by decide)⟩

/-! ### Cancellation -/

/-- C3 counterexample: a concrete two-step run — a growable-choice scope
step completed through create-and-remember (appending `"api"`), then a
subject input box dismissed — ends in cancellation (no answer record), yet
the persisted list was mutated from `[]` to `["api"]`, refuting "no
persisted choice list is mutated" for the whole sequence. -/
theorem cancellation_mutation_cx :
    runPrompts []
      [⟨"scope", PromptKind.configurableQuickPick "cfg" ⟨"New scope", "", "", ""⟩
          ⟨"New scope no save", "", "", ""⟩ none (fun _ => none), id⟩,
       ⟨"subject", PromptKind.inputBox (fun _ => none), id⟩]
      [UIEvent.pick "New scope", UIEvent.setValue "api", UIEvent.accept, UIEvent.hide] =
      (none, ["api"], []) ∧
    (["api"] : List String) ≠ ([] : List String) :=
  ⟨rfl, by decide⟩

theorem createConfigurableQuickPick_persisted_cases
    (persisted : List String) (detailText : String) (newItem niws : Item)
    (noneItem : Option Item) (format : String → String)
    (validate : String → Option String) (script : List UIEvent) :
    (createConfigurableQuickPick persisted detailText newItem niws noneItem format
      validate script).2.1 = persisted ∨
    ∃ v, v ≠ "" ∧ (createConfigurableQuickPick persisted detailText newItem niws noneItem
      format validate script).2.1 = persisted ++ [v] := by
  unfold createConfigurableQuickPick
  rcases hq : createQuickPick (configurableItems persisted detailText newItem niws)
      noneItem id script with ⟨o, rest⟩
  cases o with
  | none => exact Or.inl rfl
  | some sv =>
    by_cases h1 : sv = newItem.label
    · rcases hi : createInputBox id validate rest with ⟨oi, ri⟩
      cases oi with
      | none =>
        left
        simp [h1, hi]
      | some v =>
        by_cases hv : v = ""
        · subst hv
          by_cases hw : ("" : String) = niws.label
          · rcases h2 : createInputBox id validate ri with ⟨o2, r2⟩
            cases o2 with
            | none =>
              left
              simp [h1, hi, hw, h2]
            | some v2 =>
              left
              simp [h1, hi, hw, h2]
          · left
            simp [h1, hi, hw]
        · by_cases hw : v = niws.label
          · subst hw
            rcases h2 : createInputBox id validate ri with ⟨o2, r2⟩
            cases o2 with
            | none =>
              refine Or.inr ⟨niws.label, hv, ?_⟩
              simp [h1, hi, hv, h2]
            | some v2 =>
              refine Or.inr ⟨niws.label, hv, ?_⟩
              simp [h1, hi, hv, h2]
          · refine Or.inr ⟨v, hv, ?_⟩
            simp [h1, hi, hv, hw]
    · by_cases hw : sv = niws.label
      · subst hw
        rcases h2 : createInputBox id validate rest with ⟨o2, r2⟩
        cases o2 with
        | none =>
          left
          simp [h1, h2]
        | some v2 =>
          left
          simp [h1, h2]
      · left
        simp [h1, hw]

/-- C3 (amended): cancelling any step aborts the whole sequence with no
answer record and hence no commit message produced or handed off; persisted
lists are not rolled back, though: a single step changes the persisted list
only by appending one non-empty value entered in a completed
create-and-remember nested interaction, so any mutation surviving a
cancellation came from such a completed interaction of an earlier step. -/
theorem cancellation_aborts :
    (∀ (persisted : List String) (steps : List PromptStep) (script : List UIEvent),
       (runPrompts persisted steps script).1 = none →
       (produceMessage persisted steps script).1 = none) ∧
    (∀ (persisted : List String) (step : PromptStep) (script : List UIEvent),
       (runStep persisted step script).2.1 = persisted ∨
       ∃ v, v ≠ "" ∧ (runStep persisted step script).2.1 = persisted ++ [v]) := by
  constructor
  · intro persisted steps script h
    unfold produceMessage
    rcases hrp : runPrompts persisted steps script with ⟨o, p', s'⟩
    cases o with
    | none => simp
    | some answers =>
      rw [hrp] at h
      simp at h
  · intro persisted step script
    rcases step with ⟨name, kind, format⟩
    cases kind with
    | quickPick items noneItem =>
      left
      rcases h : createQuickPick items noneItem format script with ⟨r, s⟩
      simp [runStep, h]
    | inputBox validate =>
      left
      rcases h : createInputBox format validate script with ⟨r, s⟩
      simp [runStep, h]
    | configurableQuickPick detailText newItem niws noneItem validate =>
      exact createConfigurableQuickPick_persisted_cases persisted detailText newItem niws
        noneItem format validate script

theorem cancellation_aborts_witness :
    (produceMessage [] [⟨"subject", PromptKind.inputBox (fun _ => none), id⟩]
      [UIEvent.hide]).1 = none ∧
    ((runStep ["api"] ⟨"subject", PromptKind.inputBox (fun _ => none), id⟩
        [UIEvent.hide]).2.1 = ["api"] ∨
     ∃ v, v ≠ "" ∧ (runStep ["api"] ⟨"subject", PromptKind.inputBox (fun _ => none), id⟩
        [UIEvent.hide]).2.1 = ["api"] ++ [v]) :=
  ⟨cancellation_aborts.1 [] [⟨"subject", PromptKind.inputBox (fun _ => none), id⟩]
     [UIEvent.hide] rfl,
   cancellation_aborts.2 ["api"] ⟨"subject", PromptKind.inputBox (fun _ => none), id⟩
     [UIEvent.hide]⟩

end ConventionalCommits
